import Mathlib

/-!
Verification of the MemOS multi-backend retrieval layer:
the Qdrant multi-collection vector-database router
(`memos/vec_dbs/qdrant_multi.py`), the graph-store contract defaults
(`memos/graph_dbs/base.py`) and the SearXNG internet retriever
(`memos/memories/textual/tree_text_memory/retrieve/searxng_search.py`),
shallowly embedded in Lean 4.
-/

namespace MemOS

/-- A Python run-time value, as far as the embedded code inspects one:
strings, integers, booleans, `None`, lists and string-keyed dicts.
Floats are carried through the embedded code without arithmetic, so they
are represented by `Rat`. -/
inductive PVal where
  | str : String → PVal
  | int : Int → PVal
  | bool : Bool → PVal
  | pynone : PVal
  | list : List PVal → PVal
  | dict : List (String × PVal) → PVal

/-- A Python `dict[str, Any]`, in insertion order (keys unique in practice). -/
abbrev Dict := List (String × PVal)

/-- A Python float; the embedded code only transports floats, never computes
with them, so an exact type is adequate. -/
abbrev PFloat := Rat

mutual

/-- Python structural equality `==` on `PVal` (dict comparison is modelled
in entry order; the embedded code only ever compares scalar payload
values, where this coincides with Python). -/
def pvalBeq : PVal → PVal → Bool
  | .str a, .str b => a == b
  | .int a, .int b => a == b
  | .bool a, .bool b => a == b
  | .pynone, .pynone => true
  | .list xs, .list ys => pvalListBeq xs ys
  | .dict xs, .dict ys => pvalDictBeq xs ys
  | _, _ => false

/-- Elementwise `==` on Python lists. -/
def pvalListBeq : List PVal → List PVal → Bool
  | [], [] => true
  | x :: xs, y :: ys => pvalBeq x y && pvalListBeq xs ys
  | _, _ => false

/-- Entrywise `==` on Python dicts. -/
def pvalDictBeq : List (String × PVal) → List (String × PVal) → Bool
  | [], [] => true
  | (k1, v1) :: xs, (k2, v2) :: ys => k1 == k2 && pvalBeq v1 v2 && pvalDictBeq xs ys
  | _, _ => false

end

/-- Python truthiness (`bool(v)`): empty string, zero, `False`, `None`,
empty list and empty dict are falsy. -/
def pyTruthy : PVal → Bool
  | .str s => !s.isEmpty
  | .int n => n != 0
  | .bool b => b
  | .pynone => false
  | .list xs => !xs.isEmpty
  | .dict d => !d.isEmpty

/-- Python `d[k]` / `d.get(k)`: value at the key, if present. -/
def dget : Dict → String → Option PVal
  | [], _ => none
  | (k2, v) :: rest, k => if k2 = k then some v else dget rest k

/-- Python `d[k] = v`: replace the value in place if the key exists,
append the pair otherwise. -/
def dinsert : Dict → String → PVal → Dict
  | [], k, v => [(k, v)]
  | (k2, v2) :: rest, k, v =>
      if k2 = k then (k, v) :: rest else (k2, v2) :: dinsert rest k v

/-- Python `d1.update(d2)`: insert every entry of `d2` into `d1`, in order. -/
def dupdate (d1 d2 : Dict) : Dict :=
  d2.foldl (fun acc kv => dinsert acc kv.1 kv.2) d1

/-- Python `str(v)` as used by the f-string of the retriever. JSON search-result
fields are strings, so the rendering of compound values is never exercised
by the theorems below and is abbreviated. -/
def pyStr : PVal → String
  | .str s => s
  | .int n => toString n
  | .bool b => if b then "True" else "False"
  | .pynone => "None"
  | .list _ => "[...]"
  | .dict _ => "\x7b...\x7d"

/-! ## Item shapes (`memos/vec_dbs/item.py`, used by `qdrant_multi.py`) -/

/-- The generic vector-store item: `id`, optional `vector`, optional
free-form `payload`, optional `score`. -/
structure VecDBItem where
  id : String
  vector : Option (List PFloat)
  payload : Option Dict
  score : Option PFloat

/-- The Milvus-shaped item: a `VecDBItem` plus synthesized `memory` and
`original_text` fields (dynamic values extracted from the payload). -/
structure MilvusVecDBItem where
  id : String
  vector : Option (List PFloat)
  payload : Option Dict
  score : Option PFloat
  memory : PVal
  original_text : PVal

/-- What the write paths of the router accept (`VecDBItem | MilvusVecDBItem |
dict`); `prepare_for_qdrant` dispatches on the run-time type. -/
inductive ItemLike where
  | milvus : MilvusVecDBItem → ItemLike
  | vecItem : VecDBItem → ItemLike
  | rawDict : Dict → ItemLike

/-! ## Pure conversion and filter-translation helpers of `qdrant_multi.py` -/

/-- `_to_milvus_item`: convert a `VecDBItem` to a `MilvusVecDBItem`,
pulling `memory` / `original_text` out of the payload.
`payload.get("memory", payload.get("preference", ""))` evaluates the
default eagerly, which is exactly the nested-`Option` extraction below. -/
def to_milvus_item (item : VecDBItem) : MilvusVecDBItem :=
  let payload := match item.payload with
    | some d => d
    | none => []
  { id := item.id
    vector := item.vector
    payload := some payload
    score := item.score
    memory := (dget payload "memory").getD ((dget payload "preference").getD (PVal.str ""))
    original_text := (dget payload "original_text").getD (PVal.str "") }

/-- The `isinstance(item, MilvusVecDBItem)` branch of `_prepare_for_qdrant`:
copy the payload (a falsy payload becomes `\x7b\x7d`), store truthy
`memory` / `original_text` back into it, return a `VecDBItem`. -/
def prepare_milvus (item : MilvusVecDBItem) : VecDBItem :=
  let payload := match item.payload with
    | some d => d
    | none => []
  let payload := if pyTruthy item.memory then dinsert payload "memory" item.memory else payload
  let payload :=
    if pyTruthy item.original_text then dinsert payload "original_text" item.original_text
    else payload
  { id := item.id
    vector := item.vector
    payload := some payload
    score := item.score }

/-- `_prepare_for_qdrant`: Milvus-shaped items are converted; anything else
is returned unchanged. -/
def prepare_for_qdrant : ItemLike → ItemLike
  | .milvus m => .vecItem (prepare_milvus m)
  | other => other

/-- `_flatten_milvus_filter`: Milvus combines filters as
`\x7b"and": [dict1, dict2, ...]\x7d`; Qdrant expects one flat dict.  When the
`"and"` key holds a list, all dict members are merged in order via
`dict.update` (non-dict members are skipped) and an empty merge result is
collapsed to `None` (`return flat or None`); any other filter is returned
unchanged; `None` maps to `None`. -/
def flatten_milvus_filter (filter : Option Dict) : Option Dict :=
  match filter with
  | none => none
  | some f =>
    match dget f "and" with
    | some (PVal.list parts) =>
        let flat := parts.foldl
          (fun acc p =>
            match p with
            | PVal.dict d => dupdate acc d
            | _ => acc) []
        if flat.isEmpty then none else some flat
    | _ => some f

/-! ## The single-collection Qdrant backend -/

/-- Modelled from the spec: the concrete single-collection vector store
(`QdrantVecDB`, not part of the analysed sources) is "a connection-scoped
capability exposing execute/query semantics sufficient for CRUD, filtered
scan, and vector similarity ranking".  It is modelled as the list of
stored records; a flat filter is "the single flat equality-clause form":
a record matches when its payload holds every filter entry. -/
structure QdrantVecDB where
  collection_name : String
  items : List VecDBItem

/-- Modelled from the spec: a flat equality filter matches a record iff
every `key: value` entry of the filter is present in the payload.  The
empty filter is the empty conjunction and matches every record. -/
def matches_flat_filter (f : Dict) (item : VecDBItem) : Bool :=
  f.all fun kv =>
    match dget (match item.payload with | some d => d | none => []) kv.1 with
    | some v => pvalBeq v kv.2
    | none => false

namespace QdrantVecDB

/-- Modelled from the spec: filtered scan bounded by `scroll_limit`. -/
def get_by_filter (db : QdrantVecDB) (f : Dict) (scroll_limit : Nat) : List VecDBItem :=
  (db.items.filter (matches_flat_filter f)).take scroll_limit

/-- Modelled from the spec: point lookup by id. -/
def get_by_id (db : QdrantVecDB) (id : String) : Option VecDBItem :=
  db.items.find? (fun it => it.id = id)

/-- Modelled from the spec: point lookups by a list of ids. -/
def get_by_ids (db : QdrantVecDB) (ids : List String) : List VecDBItem :=
  db.items.filter (fun it => ids.contains it.id)

/-- Modelled from the spec: bounded scan of the whole collection. -/
def get_all (db : QdrantVecDB) (scroll_limit : Nat) : List VecDBItem :=
  db.items.take scroll_limit

/-- Modelled from the spec: similarity search returning at most `top_k`
filter-matching records ("ranked by similarity, highest first"; the
ranking itself is backend-owned and abstracted as stored order, which no
theorem below depends on). -/
def search (db : QdrantVecDB) (_query_vector : List PFloat) (top_k : Nat)
    (f : Option Dict) : List VecDBItem :=
  (db.items.filter fun it =>
    match f with
    | some flt => matches_flat_filter flt it
    | none => true).take top_k

/-- Modelled from the spec: count of filter-matching records. -/
def count (db : QdrantVecDB) (f : Option Dict) : Nat :=
  (db.items.filter fun it =>
    match f with
    | some flt => matches_flat_filter flt it
    | none => true).length

/-- Modelled from the spec: delete-by-id removes exactly the records whose
id is listed. -/
def delete (db : QdrantVecDB) (ids : List String) : QdrantVecDB :=
  { db with items := db.items.filter (fun it => !ids.contains it.id) }

end QdrantVecDB

/-! ## The multi-collection router (`QdrantMultiCollectionVecDB`) -/

/-- The error raised by `_get` for an unknown routing key (`ValueError` in
the source); it carries the requested name and the list of configured
collection names, which the message renders. -/
inductive RouterError where
  | unknownCollection (requested : String) (available : List String)

/-- The text of the unknown-collection error (quote characters of the
source f-string elided): it names the requested collection and lists the
available ones. -/
def unknown_collection_message (requested : String) (available : List String) : String :=
  "Unknown collection " ++ requested ++ ". Available: " ++ String.intercalate ", " available

/-- The message of a `RouterError`. -/
def RouterError.message : RouterError → String
  | .unknownCollection requested available => unknown_collection_message requested available

/-- One invocation of a single-collection backend instance, recorded so
that routing (which instance received which call, with which already
translated arguments) is observable. -/
inductive BackendCall where
  | searchCall (collection : String) (query_vector : List PFloat) (top_k : Nat)
      (filter : Option Dict)
  | getByIdCall (collection : String) (id : String)
  | getByIdsCall (collection : String) (ids : List String)
  | getByFilterCall (collection : String) (filter : Dict) (scroll_limit : Nat)
  | getAllCall (collection : String) (scroll_limit : Nat)
  | countCall (collection : String) (filter : Option Dict)
  | addCall (collection : String) (data : List ItemLike)
  | updateCall (collection : String) (id : String) (data : ItemLike)
  | upsertCall (collection : String) (data : List ItemLike)
  | deleteCall (collection : String) (ids : List String)
  | ensureIndexesCall (collection : String) (fields : List String)

/-- A `logger.info` event emitted by the router. -/
inductive LogEvent where
  | deletedByFilter (collection : String) (count : Nat)

/-- The router: one `QdrantVecDB` instance per configured collection name,
keyed by that name (`self._instances`), in configuration order. -/
structure QdrantMultiCollectionVecDB where
  instances : List (String × QdrantVecDB)

/-- `self._instances.get(name)`: first (only) instance under the key. -/
def lookupInst : List (String × QdrantVecDB) → String → Option QdrantVecDB
  | [], _ => none
  | (k, v) :: rest, name => if k = name then some v else lookupInst rest name

namespace QdrantMultiCollectionVecDB

/-- The configured collection names, in order (`self._instances.keys()`). -/
def names (db : QdrantMultiCollectionVecDB) : List String :=
  db.instances.map Prod.fst

/-- `_get`: resolve the routing key, raising the unknown-collection error
(listing the known names) when it is not configured. -/
def getInst (db : QdrantMultiCollectionVecDB) (collection_name : String) :
    Except RouterError QdrantVecDB :=
  match lookupInst db.instances collection_name with
  | some inst => .ok inst
  | none => .error (.unknownCollection collection_name db.names)

/-- Replace the instance stored under a routing key. -/
def setInst (db : QdrantMultiCollectionVecDB) (collection_name : String)
    (inst : QdrantVecDB) : QdrantMultiCollectionVecDB :=
  { instances :=
      db.instances.map fun p => if p.1 = collection_name then (p.1, inst) else p }

/-- `search`: flatten the Milvus-style filter, route by `collection_name`,
search the addressed instance, convert each hit to the Milvus shape.
`query` and `search_type` are accepted for API compatibility and ignored. -/
def search (db : QdrantMultiCollectionVecDB) (query_vector : List PFloat)
    (_query : String) (collection_name : String) (top_k : Nat)
    (filter : Option Dict) :
    Except RouterError (List MilvusVecDBItem × List BackendCall) := do
  let flat_filter := flatten_milvus_filter filter
  let inst ← db.getInst collection_name
  let results := inst.search query_vector top_k flat_filter
  .ok (results.map to_milvus_item,
    [.searchCall collection_name query_vector top_k flat_filter])

/-- `get_by_id`: route, look up, convert the hit (if any). -/
def get_by_id (db : QdrantMultiCollectionVecDB) (collection_name : String) (id : String) :
    Except RouterError (Option MilvusVecDBItem × List BackendCall) := do
  let inst ← db.getInst collection_name
  let result := inst.get_by_id id
  .ok (result.map to_milvus_item, [.getByIdCall collection_name id])

/-- `get_by_ids`: route, look up, convert each hit. -/
def get_by_ids (db : QdrantMultiCollectionVecDB) (collection_name : String)
    (ids : List String) :
    Except RouterError (List MilvusVecDBItem × List BackendCall) := do
  let inst ← db.getInst collection_name
  let results := inst.get_by_ids ids
  .ok (results.map to_milvus_item, [.getByIdsCall collection_name ids])

/-- `get_by_filter`: flatten the filter, substituting the empty dict when
nothing remains (`_flatten_milvus_filter(filter) or \x7b\x7d`), route, scan,
convert each hit. -/
def get_by_filter (db : QdrantMultiCollectionVecDB) (collection_name : String)
    (filter : Option Dict) (scroll_limit : Nat) :
    Except RouterError (List MilvusVecDBItem × List BackendCall) := do
  let flat_filter := (flatten_milvus_filter filter).getD []
  let inst ← db.getInst collection_name
  let results := inst.get_by_filter flat_filter scroll_limit
  .ok (results.map to_milvus_item,
    [.getByFilterCall collection_name flat_filter scroll_limit])

/-- `get_all`: route, scan, convert each hit. -/
def get_all (db : QdrantMultiCollectionVecDB) (collection_name : String)
    (scroll_limit : Nat) :
    Except RouterError (List MilvusVecDBItem × List BackendCall) := do
  let inst ← db.getInst collection_name
  let results := inst.get_all scroll_limit
  .ok (results.map to_milvus_item, [.getAllCall collection_name scroll_limit])

/-- `count`: route and count (the filter is forwarded unflattened). -/
def count (db : QdrantMultiCollectionVecDB) (collection_name : String)
    (filter : Option Dict) : Except RouterError (Nat × List BackendCall) := do
  let inst ← db.getInst collection_name
  .ok (inst.count filter, [.countCall collection_name filter])

/-- `add`: prepare every item for Qdrant, then route the batch. -/
def add (db : QdrantMultiCollectionVecDB) (collection_name : String)
    (data : List ItemLike) : Except RouterError (List BackendCall) := do
  let prepared := data.map prepare_for_qdrant
  let _ ← db.getInst collection_name
  .ok [.addCall collection_name prepared]

/-- `update`: prepare the item, then route. -/
def update (db : QdrantMultiCollectionVecDB) (collection_name : String) (id : String)
    (data : ItemLike) : Except RouterError (List BackendCall) := do
  let prepared := prepare_for_qdrant data
  let _ ← db.getInst collection_name
  .ok [.updateCall collection_name id prepared]

/-- `upsert`: prepare every item, then route the batch. -/
def upsert (db : QdrantMultiCollectionVecDB) (collection_name : String)
    (data : List ItemLike) : Except RouterError (List BackendCall) := do
  let prepared := data.map prepare_for_qdrant
  let _ ← db.getInst collection_name
  .ok [.upsertCall collection_name prepared]

/-- `delete`: route the delete-by-ids call. -/
def delete (db : QdrantMultiCollectionVecDB) (collection_name : String)
    (ids : List String) : Except RouterError (List BackendCall) := do
  let _ ← db.getInst collection_name
  .ok [.deleteCall collection_name ids]

/-- `delete_by_filter`: route, scan the collection with the flattened
filter (empty dict if nothing remains; the backend scan uses its default
scroll limit of 100), and, only when the scan matched, delete exactly the
scanned ids and log how many records were removed. -/
def delete_by_filter (db : QdrantMultiCollectionVecDB) (collection_name : String)
    (filter : Option Dict) :
    Except RouterError (QdrantMultiCollectionVecDB × List BackendCall × List LogEvent) := do
  let inst ← db.getInst collection_name
  let flat_filter := (flatten_milvus_filter filter).getD []
  let items := inst.get_by_filter flat_filter 100
  if items.isEmpty then
    .ok (db, [.getByFilterCall collection_name flat_filter 100], [])
  else
    let ids := items.map VecDBItem.id
    .ok (db.setInst collection_name (inst.delete ids),
      [.getByFilterCall collection_name flat_filter 100,
        .deleteCall collection_name ids],
      [.deletedByFilter collection_name items.length])

/-- `ensure_payload_indexes`: takes no routing key and issues the indexing
call on every configured instance (`for inst in self._instances.values()`). -/
def ensure_payload_indexes (db : QdrantMultiCollectionVecDB) (fields : List String) :
    List BackendCall :=
  db.instances.map fun p => .ensureIndexesCall p.1 fields

end QdrantMultiCollectionVecDB

/-! ## Graph-store contract defaults (`memos/graph_dbs/base.py`)

`BaseGraphDB` is abstract; the three keyword/full-text search methods are
the only non-abstract ones and simply `return []`.  A concrete backend is
modelled by the optional overrides it supplies; dispatch falls back to the
base-class body when no override is present, exactly as Python method
resolution does. -/

/-- A concrete graph backend, seen through the three optional search
capabilities of `BaseGraphDB`: each field holds the subclass override, or
`none` when the backend does not override the method. -/
structure GraphDBSearchOverrides where
  fulltext : Option (List String → Nat → List Dict)
  keywordsLike : Option (String → List Dict)
  keywordsTfidf : Option (List String → List Dict)

/-- `BaseGraphDB.search_by_fulltext` dispatch: the override if present,
otherwise the base-class default `return []`. -/
def search_by_fulltext (g : GraphDBSearchOverrides) (query_words : List String)
    (top_k : Nat) : List Dict :=
  match g.fulltext with
  | some f => f query_words top_k
  | none => []

/-- `BaseGraphDB.search_by_keywords_like` dispatch: the override if
present, otherwise the base-class default `return []`. -/
def search_by_keywords_like (g : GraphDBSearchOverrides) (query_word : String) :
    List Dict :=
  match g.keywordsLike with
  | some f => f query_word
  | none => []

/-- `BaseGraphDB.search_by_keywords_tfidf` dispatch: the override if
present, otherwise the base-class default `return []`. -/
def search_by_keywords_tfidf (g : GraphDBSearchOverrides) (query_words : List String) :
    List Dict :=
  match g.keywordsTfidf with
  | some f => f query_words
  | none => []

/-! ## The SearXNG internet retriever (`searxng_search.py`)

`retrieve_from_internet` is embedded as a pure function of its effectful
inputs: the search response already fetched by `SearxngSearchAPI.search`,
the injected embedder (whose invocations are recorded as a list of
batches), a uuid supply and the two clock readings. -/

/-- A `SourceMessage(type="web", url=...)` attached to a retrieved item. -/
structure SourceMessage where
  type : String
  url : PVal

/-- `TreeNodeTextualMemoryMetadata` as constructed by the retriever (the
fields the constructor call sets). -/
structure TreeNodeTextualMemoryMetadata where
  user_id : PVal
  session_id : PVal
  status : String
  type : String
  memory_time : String
  source : String
  confidence : PFloat
  tags : List String
  visibility : String
  memory_type : String
  key : PVal
  sources : List SourceMessage
  embedding : List PFloat
  created_at : String
  usage : List String
  background : String

/-- A retrieved memory item: generated id, memory text, metadata. -/
structure TextualMemoryItem where
  id : String
  memory : String
  metadata : TreeNodeTextualMemoryMetadata

/-- The parsed task goal: only its optional `topic` / `concept` attributes
are read (guarded by `hasattr` and truthiness). -/
structure ParsedGoal where
  topic : Option String
  concept : Option String

/-- One entry built from a search result before embedding: the memory
text, the raw title and url values, and the tags. -/
structure RetrievedEntry where
  content : String
  title : PVal
  link : PVal
  tags : List String

/-- The memory text built from one search result dict:
`f"Title: \x7btitle\x7d\nSummary: \x7bsnippet\x7d\nSource: \x7blink\x7d"` with
`title` / `snippet` / `link` defaulting to the empty string. -/
def memory_content_of (result : Dict) : String :=
  "Title: " ++ pyStr ((dget result "title").getD (PVal.str "")) ++
  "\nSummary: " ++ pyStr ((dget result "content").getD (PVal.str "")) ++
  "\nSource: " ++ pyStr ((dget result "url").getD (PVal.str ""))

/-- The entry the first loop of `retrieve_from_internet` builds from one
search result. -/
def entry_of (parsed_goal : Option ParsedGoal) (result : Dict) : RetrievedEntry :=
  let tags := ["web_search"] ++
    (match parsed_goal with
      | none => []
      | some g =>
        (match g.topic with
          | some t => if t.isEmpty then [] else [t]
          | none => []) ++
        (match g.concept with
          | some c => if c.isEmpty then [] else [c]
          | none => []))
  { content := memory_content_of result
    title := (dget result "title").getD (PVal.str "")
    link := (dget result "url").getD (PVal.str "")
    tags := tags }

/-- `SearxngSearchRetriever.retrieve_from_internet`, returning the built
memory items together with the list of batches passed to the injected
embedder (one list entry per `embedder.embed` invocation).  An empty
search response short-circuits to no items and no embedder call; otherwise
all memory texts are built first and embedded in a single batched call,
and items are assembled by zipping entries with embeddings. -/
def retrieve_from_internet (embed : List String → List (List PFloat))
    (gen_id : Nat → String) (now_str now_iso : String)
    (search_results : List Dict) (parsed_goal : Option ParsedGoal)
    (info : Option Dict) :
    List TextualMemoryItem × List (List String) :=
  let info := match info with
    | some d => if d.isEmpty then [("user_id", PVal.str ""), ("session_id", PVal.str "")] else d
    | none => [("user_id", PVal.str ""), ("session_id", PVal.str "")]
  if search_results.isEmpty then ([], [])
  else
    let entries := search_results.map (entry_of parsed_goal)
    let all_texts := entries.map RetrievedEntry.content
    let all_embeddings := embed all_texts
    let user_id := (dget info "user_id").getD (PVal.str "")
    let session_id := (dget info "session_id").getD (PVal.str "")
    let memory_items := (entries.zip all_embeddings).enum.map fun ie =>
      let entry := ie.2.1
      let embedding := ie.2.2
      { id := gen_id ie.1
        memory := entry.content
        metadata :=
          { user_id := user_id
            session_id := session_id
            status := "activated"
            type := "fact"
            memory_time := now_str
            source := "web"
            confidence := 85
            tags := entry.tags
            visibility := "public"
            memory_type := "LongTermMemory"
            key := entry.title
            sources := if pyTruthy entry.link then [⟨"web", entry.link⟩] else []
            embedding := embedding
            created_at := now_iso
            usage := []
            background := "SearXNG search result" } }
    (memory_items, [all_texts])

/-! ## Helper lemmas -/

theorem lookupInst_eq_none (l : List (String × QdrantVecDB)) (name : String)
    (h : name ∉ l.map Prod.fst) : lookupInst l name = none := by
  induction l with
  | nil => rfl
  | cons p rest ih =>
    simp only [List.map_cons, List.mem_cons, not_or] at h
    have hne : ¬p.1 = name := fun hk => h.1 hk.symm
    simp [lookupInst, hne, ih h.2]

theorem getInst_eq_error (db : QdrantMultiCollectionVecDB) (name : String)
    (h : name ∉ db.names) :
    db.getInst name = .error (.unknownCollection name db.names) := by
  simp only [QdrantMultiCollectionVecDB.getInst, lookupInst_eq_none db.instances name h]

theorem getInst_eq_ok (db : QdrantMultiCollectionVecDB) (name : String)
    (inst : QdrantVecDB) (h : lookupInst db.instances name = some inst) :
    db.getInst name = .ok inst := by
  simp only [QdrantMultiCollectionVecDB.getInst, h]

/-- A two-collection router over empty stores, for concrete routing
checks. -/
def dbTwo : QdrantMultiCollectionVecDB :=
  ⟨[("pref", ⟨"pref", []⟩), ("mem0", ⟨"mem0", []⟩)]⟩

/-! ## C9 -/

/-- C9: the optional graph-store contract full-text and keyword search
operations (`search_by_fulltext`, `search_by_keywords_like`,
`search_by_keywords_tfidf`) default to the empty result list whenever a
concrete backend supplies no override; being total functions of the
embedding, they raise nothing. -/
theorem c9_optional_search_defaults_empty (g : GraphDBSearchOverrides)
    (query_words : List String) (top_k : Nat) (query_word : String)
    (h1 : g.fulltext = none) (h2 : g.keywordsLike = none)
    (h3 : g.keywordsTfidf = none) :
    search_by_fulltext g query_words top_k = []
    ∧ search_by_keywords_like g query_word = []
    ∧ search_by_keywords_tfidf g query_words = [] := by
  refine ⟨?_, ?_, ?_⟩ <;>
    simp [search_by_fulltext, search_by_keywords_like, search_by_keywords_tfidf,
      h1, h2, h3]

/-- C9 witness: a backend with no overrides, on concrete queries. -/
theorem c9_witness :
    (⟨none, none, none⟩ : GraphDBSearchOverrides).fulltext = none
    ∧ (search_by_fulltext ⟨none, none, none⟩ ["alpha", "beta"] 10 = []
      ∧ search_by_keywords_like ⟨none, none, none⟩ "alpha" = []
      ∧ search_by_keywords_tfidf ⟨none, none, none⟩ ["alpha"] = []) :=
  ⟨rfl, c9_optional_search_defaults_empty ⟨none, none, none⟩ ["alpha", "beta"] 10 "alpha"
    rfl rfl rfl⟩

theorem dget_dinsert (d : Dict) (k2 k : String) (v : PVal) :
    dget (dinsert d k2 v) k = if k2 = k then some v else dget d k := by
  induction d with
  | nil =>
    by_cases hk : k2 = k <;> simp [dinsert, dget, hk]
  | cons p rest ih =>
    rcases p with ⟨pk, pv⟩
    by_cases hp : pk = k2
    · subst hp
      by_cases hk : pk = k <;> simp [dinsert, dget, hk]
    · by_cases hpk : pk = k
      · subst hpk
        have hk2 : ¬k2 = pk := fun hx => hp hx.symm
        simp [dinsert, dget, hp, hk2]
      · simp [dinsert, dget, hp, hpk, ih]

theorem dget_append (d1 d2 : Dict) (k : String) :
    dget (d1 ++ d2) k = (dget d1 k).or (dget d2 k) := by
  induction d1 with
  | nil => simp [dget]
  | cons p rest ih =>
    by_cases hp : p.1 = k <;> simp [dget, hp, ih]

theorem dget_dupdate (d a : Dict) (k : String) :
    dget (dupdate a d) k = (dget d.reverse k).or (dget a k) := by
  induction d generalizing a with
  | nil => simp [dupdate, dget]
  | cons p rest ih =>
    rcases p with ⟨pk, pv⟩
    show dget (dupdate (dinsert a pk pv) rest) k = _
    rw [ih, List.reverse_cons, dget_append, Option.or_assoc, dget_dinsert]
    by_cases hk : pk = k <;> simp [dget, hk]

/-- The merge the flattening performs on the members of an `"and"` list:
fold `dict.update` over the dict-valued clauses, in order, starting from
the empty dict. -/
def merge_and_clauses (clauses : List PVal) : Dict :=
  clauses.foldl
    (fun acc p =>
      match p with
      | PVal.dict d => dupdate acc d
      | _ => acc) []

/-- Whether a clause is dict-valued (everything else — `None` included —
is dropped by the flattening). -/
def isDictClause : PVal → Bool
  | .dict _ => true
  | _ => false

/-- The value the last dict-valued clause containing a key assigns to it
("later clauses overriding earlier keys"). -/
def last_clause_value (clauses : List PVal) (k : String) : Option PVal :=
  clauses.reverse.findSome? fun p =>
    match p with
    | PVal.dict d => dget d.reverse k
    | _ => none

theorem dget_foldl_update (clauses : List PVal) (a : Dict) (k : String) :
    dget
      (clauses.foldl
        (fun acc p =>
          match p with
          | PVal.dict d => dupdate acc d
          | _ => acc) a) k
    = (last_clause_value clauses k).or (dget a k) := by
  induction clauses generalizing a with
  | nil => simp [last_clause_value, List.findSome?]
  | cons c rest ih =>
    rw [List.foldl_cons, ih]
    have hlast : last_clause_value (c :: rest) k
        = (last_clause_value rest k).or
            (match c with
              | PVal.dict d => dget d.reverse k
              | _ => none) := by
      simp only [last_clause_value, List.reverse_cons, List.findSome?_append]
      cases c with
      | dict d =>
        simp only [List.findSome?]
        cases hdv : dget d.reverse k <;> simp [hdv]
      | str s => simp [List.findSome?]
      | int n => simp [List.findSome?]
      | bool b => simp [List.findSome?]
      | pynone => simp [List.findSome?]
      | list l => simp [List.findSome?]
    rw [hlast, Option.or_assoc]
    congr 1
    cases c <;> simp [dget_dupdate]

theorem dget_merge_and_clauses (clauses : List PVal) (k : String) :
    dget (merge_and_clauses clauses) k = last_clause_value clauses k := by
  rw [merge_and_clauses, dget_foldl_update]
  simp [dget]

theorem foldl_update_all_dropped (clauses : List PVal) (a : Dict)
    (h : ∀ c ∈ clauses, isDictClause c = false) :
    clauses.foldl
      (fun acc p =>
        match p with
        | PVal.dict d => dupdate acc d
        | _ => acc) a = a := by
  induction clauses generalizing a with
  | nil => rfl
  | cons c rest ih =>
    have h1 := h c (List.mem_cons_self c rest)
    have h2 : ∀ x ∈ rest, isDictClause x = false :=
      fun x hx => h x (List.mem_cons_of_mem c hx)
    cases c
    case dict d => simp [isDictClause] at h1
    all_goals rw [List.foldl_cons]; exact ih _ h2

theorem merge_all_dropped (clauses : List PVal)
    (h : ∀ c ∈ clauses, isDictClause c = false) : merge_and_clauses clauses = [] :=
  foldl_update_all_dropped clauses [] h

theorem foldl_update_filter_dict (clauses : List PVal) (a : Dict) :
    (clauses.filter isDictClause).foldl
      (fun acc p =>
        match p with
        | PVal.dict d => dupdate acc d
        | _ => acc) a
    = clauses.foldl
      (fun acc p =>
        match p with
        | PVal.dict d => dupdate acc d
        | _ => acc) a := by
  induction clauses generalizing a with
  | nil => rfl
  | cons c rest ih =>
    cases c with
    | dict d => simp [List.filter_cons, isDictClause, List.foldl_cons, ih]
    | str s => simp [List.filter_cons, isDictClause, List.foldl_cons, ih]
    | int n => simp [List.filter_cons, isDictClause, List.foldl_cons, ih]
    | bool b => simp [List.filter_cons, isDictClause, List.foldl_cons, ih]
    | pynone => simp [List.filter_cons, isDictClause, List.foldl_cons, ih]
    | list l => simp [List.filter_cons, isDictClause, List.foldl_cons, ih]

/-- Dropping the non-dict members of an `"and"` list does not change the
merge: they are silently ignored by the flattening. -/
theorem merge_and_clauses_filter_dict (clauses : List PVal) :
    merge_and_clauses (clauses.filter isDictClause) = merge_and_clauses clauses :=
  foldl_update_filter_dict clauses []

/-- The `"and"` member list of a filter, when the `"and"` key holds a
list (the compound case the flattening recognises). -/
def and_clauses (f : Dict) : Option (List PVal) :=
  match dget f "and" with
  | some (PVal.list parts) => some parts
  | _ => none

theorem flatten_of_and_clauses (f : Dict) (clauses : List PVal)
    (h : and_clauses f = some clauses) :
    flatten_milvus_filter (some f)
      = (if (merge_and_clauses clauses).isEmpty then none
          else some (merge_and_clauses clauses)) := by
  unfold and_clauses at h
  simp only [flatten_milvus_filter]
  cases hg : dget f "and" with
  | none => rw [hg] at h; exact Option.noConfusion h
  | some v =>
    rw [hg] at h
    cases v with
    | list parts =>
      have hpc : parts = clauses := Option.some.inj h
      subst hpc
      rfl
    | str s => exact Option.noConfusion h
    | int n => exact Option.noConfusion h
    | bool b => exact Option.noConfusion h
    | pynone => exact Option.noConfusion h
    | dict d => exact Option.noConfusion h

theorem flatten_not_and (f : Dict) (h : and_clauses f = none) :
    flatten_milvus_filter (some f) = some f := by
  unfold and_clauses at h
  simp only [flatten_milvus_filter]
  cases hg : dget f "and" with
  | none => rfl
  | some v =>
    rw [hg] at h
    cases v with
    | list parts => exact Option.noConfusion h
    | str s => rfl
    | int n => rfl
    | bool b => rfl
    | pynone => rfl
    | dict d => rfl

/-! ## C3 -/

/-- C3: the filter flattening.  `None` maps to `None`; a compound
`\x7b"and": [...]\x7d` filter flattens to the single mapping obtained by
merging the dict-valued sub-clauses in order — at every key the merge
holds the value assigned by the last dict clause containing that key —
with `None`-valued (indeed all non-dict) sub-clauses silently dropped, and
collapses to `None` when nothing remains, in particular when the clause
list is empty or every sub-clause was dropped; a flat (non-`"and"`) filter
is returned unchanged. -/
theorem c3_flatten_filter_spec (f : Dict) :
    flatten_milvus_filter none = none
    ∧ (∀ clauses, and_clauses f = some clauses →
        flatten_milvus_filter (some f)
            = (if (merge_and_clauses clauses).isEmpty then none
                else some (merge_and_clauses clauses))
        ∧ (∀ k, dget (merge_and_clauses clauses) k = last_clause_value clauses k)
        ∧ ((clauses = [] ∨ ∀ c ∈ clauses, isDictClause c = false) →
            flatten_milvus_filter (some f) = none))
    ∧ (and_clauses f = none → flatten_milvus_filter (some f) = some f) := by
  refine ⟨rfl, ?_, flatten_not_and f⟩
  intro clauses hand
  refine ⟨flatten_of_and_clauses f clauses hand,
    fun k => dget_merge_and_clauses clauses k, ?_⟩
  intro hdrop
  have hnil : merge_and_clauses clauses = [] := by
    rcases hdrop with h0 | hall
    · subst h0; rfl
    · exact merge_all_dropped clauses hall
  rw [flatten_of_and_clauses f clauses hand, hnil]
  rfl

/-- A compound filter whose two dict clauses overlap on `"a"` and whose
`None` clause is dropped. -/
def filterC3 : Dict :=
  [("and", PVal.list
    [PVal.dict [("a", PVal.int 1), ("b", PVal.int 1)],
      PVal.pynone,
      PVal.dict [("a", PVal.int 2)]])]

/-- C3 witness: on `filterC3` the flattening merges the two dict clauses,
the later `a` value overriding the earlier, dropping the `None` clause. -/
theorem c3_witness :
    flatten_milvus_filter (some filterC3) = some [("a", PVal.int 2), ("b", PVal.int 1)]
    ∧ flatten_milvus_filter (some [("and", PVal.list [PVal.pynone])]) = none := by
  constructor
  · have h := ((c3_flatten_filter_spec filterC3).2.1
      [PVal.dict [("a", PVal.int 1), ("b", PVal.int 1)], PVal.pynone,
        PVal.dict [("a", PVal.int 2)]] rfl).1
    rw [h]
    rfl
  · have h := ((c3_flatten_filter_spec [("and", PVal.list [PVal.pynone])]).2.1
      [PVal.pynone] rfl).2.2
    exact h (Or.inr (by intro c hc; simp at hc; subst hc; rfl))

/-! ## C4 -/

/-- Spec-side `memory` extraction, following the words of the claim: the
payload value at `"memory"` if that key is present, otherwise the value at
`"preference"` if present, otherwise the empty string. -/
def spec_memory_of (p : Dict) : PVal :=
  match dget p "memory" with
  | some v => v
  | none =>
    match dget p "preference" with
    | some v => v
    | none => PVal.str ""

/-- Spec-side `original_text` extraction, following the words of the claim:
the payload value at `"original_text"` if present, otherwise the empty
string. -/
def spec_original_text_of (p : Dict) : PVal :=
  match dget p "original_text" with
  | some v => v
  | none => PVal.str ""

/-- A stored record with no payload at all. -/
def itemNoPayload : VecDBItem := ⟨"id1", none, none, none⟩

/-- A one-collection router whose store holds only `itemNoPayload`. -/
def dbNoPayload : QdrantMultiCollectionVecDB :=
  ⟨[("pref", ⟨"pref", [itemNoPayload]⟩)]⟩

/-- C4 counterexample: the claim says the payload of the outgoing item is
carried over unchanged; for a stored record whose payload is `None`, the
`get_by_id` of the router returns an item whose payload is the empty mapping,
not `None`. -/
theorem c4_counterexample_none_payload_replaced :
    dbNoPayload.get_by_id "pref" "id1"
      = .ok (some (to_milvus_item itemNoPayload), [.getByIdCall "pref" "id1"])
    ∧ (to_milvus_item itemNoPayload).payload = some []
    ∧ itemNoPayload.payload = none
    ∧ (to_milvus_item itemNoPayload).payload ≠ itemNoPayload.payload :=
  ⟨rfl, rfl, rfl, by simp [to_milvus_item, itemNoPayload]⟩

/-- C4 amended: for every item produced by a router read operation (each
read maps backend results through `to_milvus_item`, as stated here for
`get_by_id`), the `memory` of the outgoing item is the `"memory"`
value if present, else its `"preference"` value if present, else the empty
string of the payload; `original_text` is its `"original_text"` value if
present, else the empty string; `id`, `vector` and `score` are carried
over unchanged, and the payload is carried over unchanged except that a
`None` payload becomes the empty mapping. -/
theorem c4_amended_item_shape_translation (item : VecDBItem)
    (db : QdrantMultiCollectionVecDB) (name : String) (inst : QdrantVecDB)
    (id : String) (hinst : lookupInst db.instances name = some inst) :
    (to_milvus_item item).id = item.id
    ∧ (to_milvus_item item).vector = item.vector
    ∧ (to_milvus_item item).score = item.score
    ∧ (to_milvus_item item).payload
        = some (match item.payload with | some d => d | none => [])
    ∧ (∀ d, item.payload = some d → (to_milvus_item item).payload = item.payload)
    ∧ (to_milvus_item item).memory
        = spec_memory_of (match item.payload with | some d => d | none => [])
    ∧ (to_milvus_item item).original_text
        = spec_original_text_of (match item.payload with | some d => d | none => [])
    ∧ db.get_by_id name id
        = .ok ((inst.get_by_id id).map to_milvus_item, [.getByIdCall name id]) := by
  have hok := getInst_eq_ok db name inst hinst
  refine ⟨rfl, rfl, rfl, rfl, ?_, ?_, ?_, ?_⟩
  · intro d hd
    simp [to_milvus_item, hd]
  · simp only [to_milvus_item, spec_memory_of]
    cases dget (match item.payload with | some d => d | none => []) "memory" with
    | some v => rfl
    | none =>
      cases dget (match item.payload with | some d => d | none => []) "preference" with
      | some v => rfl
      | none => rfl
  · simp only [to_milvus_item, spec_original_text_of]
    cases dget (match item.payload with | some d => d | none => []) "original_text" with
    | some v => rfl
    | none => rfl
  · simp only [QdrantMultiCollectionVecDB.get_by_id, hok]
    rfl

/-- A stored record whose payload exercises the `preference` fallback. -/
def itemPreference : VecDBItem :=
  ⟨"id2", some [1, 2], some [("preference", PVal.str "likes tea")], some 1⟩

/-- C4 amended witness: on a record with a `preference` key and no
`memory` key, the outgoing item falls back to the `preference` value, and
`get_by_id` routes through the conversion. -/
theorem c4_witness :
    (to_milvus_item itemPreference).memory = PVal.str "likes tea"
    ∧ (to_milvus_item itemPreference).payload = itemPreference.payload
    ∧ dbTwo.get_by_id "pref" "missing" = .ok (none, [.getByIdCall "pref" "missing"]) := by
  have h := c4_amended_item_shape_translation itemPreference dbTwo "pref" ⟨"pref", []⟩
    "missing" rfl
  refine ⟨?_, ?_, ?_⟩
  · rw [h.2.2.2.2.2.1]; rfl
  · exact h.2.2.2.2.1 [("preference", PVal.str "likes tea")] rfl
  · have h8 := h.2.2.2.2.2.2.2
    simpa using h8

/-! ## C2 -/

/-- C2: every routed operation of the router (`search`, `get_by_id`,
`get_by_ids`, `get_by_filter`, `get_all`, `count`, `add`, `update`,
`upsert`, `delete`, `delete_by_filter`), applied to a collection name that
is not configured, fails with the unknown-collection error carrying (and
rendering in its message) the list of known collection names; the error is
raised by `_get` before any backend instance is touched, so no backend
call occurs (the operations return no call trace). -/
theorem c2_unknown_collection_rejected_all_ops (db : QdrantMultiCollectionVecDB)
    (name : String) (h : name ∉ db.names) (query_vector : List PFloat)
    (query : String) (top_k : Nat) (filter : Option Dict) (id : String)
    (ids : List String) (scroll_limit : Nat) (data : List ItemLike)
    (one_item : ItemLike) :
    db.search query_vector query name top_k filter
        = .error (.unknownCollection name db.names)
    ∧ db.get_by_id name id = .error (.unknownCollection name db.names)
    ∧ db.get_by_ids name ids = .error (.unknownCollection name db.names)
    ∧ db.get_by_filter name filter scroll_limit
        = .error (.unknownCollection name db.names)
    ∧ db.get_all name scroll_limit = .error (.unknownCollection name db.names)
    ∧ db.count name filter = .error (.unknownCollection name db.names)
    ∧ db.add name data = .error (.unknownCollection name db.names)
    ∧ db.update name id one_item = .error (.unknownCollection name db.names)
    ∧ db.upsert name data = .error (.unknownCollection name db.names)
    ∧ db.delete name ids = .error (.unknownCollection name db.names)
    ∧ db.delete_by_filter name filter = .error (.unknownCollection name db.names)
    ∧ (RouterError.unknownCollection name db.names).message
        = unknown_collection_message name db.names := by
  have he := getInst_eq_error db name h
  refine ⟨?_, ?_, ?_, ?_, ?_, ?_, ?_, ?_, ?_, ?_, ?_, rfl⟩ <;>
    simp only [QdrantMultiCollectionVecDB.search, QdrantMultiCollectionVecDB.get_by_id,
      QdrantMultiCollectionVecDB.get_by_ids, QdrantMultiCollectionVecDB.get_by_filter,
      QdrantMultiCollectionVecDB.get_all, QdrantMultiCollectionVecDB.count,
      QdrantMultiCollectionVecDB.add, QdrantMultiCollectionVecDB.update,
      QdrantMultiCollectionVecDB.upsert, QdrantMultiCollectionVecDB.delete,
      QdrantMultiCollectionVecDB.delete_by_filter, he] <;> rfl

theorem except_bind_ok {ε α β : Type} (a : α) (f : α → Except ε β) :
    (Except.ok a >>= f : Except ε β) = f a := rfl

theorem delete_by_filter_cases (db : QdrantMultiCollectionVecDB) (name : String)
    (inst : QdrantVecDB) (filter : Option Dict)
    (hinst : lookupInst db.instances name = some inst) :
    (inst.get_by_filter ((flatten_milvus_filter filter).getD []) 100 = [] →
      db.delete_by_filter name filter
        = .ok (db,
            [.getByFilterCall name ((flatten_milvus_filter filter).getD []) 100], []))
    ∧ (inst.get_by_filter ((flatten_milvus_filter filter).getD []) 100 ≠ [] →
      db.delete_by_filter name filter
        = .ok (db.setInst name
            (inst.delete
              ((inst.get_by_filter ((flatten_milvus_filter filter).getD []) 100).map
                VecDBItem.id)),
          [.getByFilterCall name ((flatten_milvus_filter filter).getD []) 100,
            .deleteCall name
              ((inst.get_by_filter ((flatten_milvus_filter filter).getD []) 100).map
                VecDBItem.id)],
          [.deletedByFilter name
              (inst.get_by_filter ((flatten_milvus_filter filter).getD []) 100).length])) := by
  have hok := getInst_eq_ok db name inst hinst
  constructor
  · intro hnil
    simp only [QdrantMultiCollectionVecDB.delete_by_filter, hok, except_bind_ok]
    simp [hnil]
  · intro hne
    have hne2 : (inst.get_by_filter ((flatten_milvus_filter filter).getD []) 100).isEmpty
        = false := by
      cases hc : inst.get_by_filter ((flatten_milvus_filter filter).getD []) 100 with
      | nil => exact absurd hc hne
      | cons x xs => rfl
    simp only [QdrantMultiCollectionVecDB.delete_by_filter, hok, except_bind_ok]
    simp [hne2]

/-! ## C1 -/

/-- A compound OR filter: not representable in the flat equality form. -/
def orFilter : Dict :=
  [("or", PVal.list
    [PVal.dict [("user_id", PVal.str "u1")],
      PVal.dict [("status", PVal.str "archived")]])]

/-- C1 counterexample: the claim says a filter with a compound OR clause
makes the filter-accepting operations fail with `UnsupportedFilterError`;
on the code there is no such failure — the flattening returns the OR
filter unchanged and `search` on a configured collection succeeds,
forwarding the untranslated filter to the backend instance. -/
theorem c1_counterexample_or_filter_not_rejected :
    flatten_milvus_filter (some orFilter) = some orFilter
    ∧ dbTwo.search [1] "q" "pref" 5 (some orFilter)
        = .ok ([], [.searchCall "pref" [1] 5 (some orFilter)]) :=
  ⟨rfl, rfl⟩

/-- C1 amended: the router performs no unsupported-filter detection and
defines no `UnsupportedFilterError`.  A canonical filter whose top level
is not an `"and"`-list (an OR clause or a range clause included) reaches
the addressed backend instance unchanged and every filter-accepting
operation succeeds rather than fails: `search` and `get_by_filter`
forward it as the (unchanged) flattening result, `count` forwards it
without any translation, and `delete_by_filter` scans with it and
proceeds normally whether or not the scan matched.  Inside an `"and"`
list, non-dict members are silently dropped: the flattening of a compound
filter equals the flattening of its dict-valued members alone. -/
theorem c1_amended_unsupported_filters_passed_through
    (db : QdrantMultiCollectionVecDB) (name : String) (inst : QdrantVecDB)
    (query_vector : List PFloat) (query : String) (top_k : Nat) (f : Dict)
    (scroll_limit : Nat)
    (hinst : lookupInst db.instances name = some inst)
    (hnotand : and_clauses f = none) :
    db.search query_vector query name top_k (some f)
      = .ok ((inst.search query_vector top_k (some f)).map to_milvus_item,
          [.searchCall name query_vector top_k (some f)])
    ∧ db.get_by_filter name (some f) scroll_limit
      = .ok ((inst.get_by_filter f scroll_limit).map to_milvus_item,
          [.getByFilterCall name f scroll_limit])
    ∧ db.count name (some f) = .ok (inst.count (some f), [.countCall name (some f)])
    ∧ (inst.get_by_filter f 100 = [] →
        db.delete_by_filter name (some f)
          = .ok (db, [.getByFilterCall name f 100], []))
    ∧ (inst.get_by_filter f 100 ≠ [] →
        db.delete_by_filter name (some f)
          = .ok (db.setInst name
              (inst.delete ((inst.get_by_filter f 100).map VecDBItem.id)),
            [.getByFilterCall name f 100,
              .deleteCall name ((inst.get_by_filter f 100).map VecDBItem.id)],
            [.deletedByFilter name (inst.get_by_filter f 100).length]))
    ∧ (∀ (f2 : Dict) (clauses : List PVal), and_clauses f2 = some clauses →
        flatten_milvus_filter (some f2)
          = (if (merge_and_clauses (clauses.filter isDictClause)).isEmpty then none
              else some (merge_and_clauses (clauses.filter isDictClause)))) := by
  have hok := getInst_eq_ok db name inst hinst
  have hflat := flatten_not_and f hnotand
  have hdbf := delete_by_filter_cases db name inst (some f) hinst
  simp only [hflat, Option.getD_some] at hdbf
  refine ⟨?_, ?_, ?_, hdbf.1, hdbf.2, ?_⟩
  · simp only [QdrantMultiCollectionVecDB.search, hflat, hok]
    rfl
  · simp only [QdrantMultiCollectionVecDB.get_by_filter, hflat, Option.getD_some, hok]
    rfl
  · simp only [QdrantMultiCollectionVecDB.count, hok]
    rfl
  · intro f2 clauses hand
    rw [flatten_of_and_clauses f2 clauses hand, merge_and_clauses_filter_dict]

/-- C1 amended witness: the OR filter travels untranslated through
`search`, `get_by_filter`, `count` and `delete_by_filter` on the
configured collection `pref`, all of which succeed; and a concrete
`"and"` list flattens by its single dict member, its `None` and string
members silently dropped. -/
theorem c1_amended_witness :
    dbTwo.search [1] "q" "pref" 3 (some orFilter)
      = .ok ([], [.searchCall "pref" [1] 3 (some orFilter)])
    ∧ dbTwo.get_by_filter "pref" (some orFilter) 10
      = .ok ([], [.getByFilterCall "pref" orFilter 10])
    ∧ dbTwo.count "pref" (some orFilter) = .ok (0, [.countCall "pref" (some orFilter)])
    ∧ dbTwo.delete_by_filter "pref" (some orFilter)
      = .ok (dbTwo, [.getByFilterCall "pref" orFilter 100], [])
    ∧ flatten_milvus_filter
        (some [("and",
          PVal.list [PVal.pynone, PVal.dict [("a", PVal.int 1)], PVal.str "x"])])
      = some [("a", PVal.int 1)] := by
  have h := c1_amended_unsupported_filters_passed_through dbTwo "pref" ⟨"pref", []⟩
    [1] "q" 3 orFilter 10 rfl rfl
  exact ⟨h.1.trans rfl, h.2.1.trans rfl, h.2.2.1.trans rfl, (h.2.2.2.1 rfl).trans rfl,
    (h.2.2.2.2.2 [("and",
        PVal.list [PVal.pynone, PVal.dict [("a", PVal.int 1)], PVal.str "x"])]
      [PVal.pynone, PVal.dict [("a", PVal.int 1)], PVal.str "x"] rfl).trans rfl⟩

/-- C2 witness: the concrete name `nope` is not among `pref`, `mem0`, and
every operation reports exactly those two known names. -/
theorem c2_witness :
    "nope" ∉ dbTwo.names
    ∧ dbTwo.search [1] "q" "nope" 5 none
        = .error (.unknownCollection "nope" ["pref", "mem0"])
    ∧ dbTwo.delete_by_filter "nope" none
        = .error (.unknownCollection "nope" ["pref", "mem0"]) := by
  have h : "nope" ∉ dbTwo.names := by decide
  have hc := c2_unknown_collection_rejected_all_ops dbTwo "nope" h [1] "q" 5 none
    "x" [] 7 [] (.rawDict [])
  exact ⟨h, hc.1, hc.2.2.2.2.2.2.2.2.2.2.1⟩

/-! ## C5 and C10: delete_by_filter and vacuous filters -/

/-- C5: on every configured collection, `delete_by_filter` is
compositional: it first scans the collection for the records matching the
flattened filter (backend scroll limit 100), then — only when the scan
matched — deletes exactly the ids of the scanned records and logs how many
records were removed; when the scan matches nothing, no delete call is
issued (and the router state is unchanged). -/
theorem c5_delete_by_filter_compositional (db : QdrantMultiCollectionVecDB)
    (name : String) (inst : QdrantVecDB) (filter : Option Dict)
    (hinst : lookupInst db.instances name = some inst) :
    (inst.get_by_filter ((flatten_milvus_filter filter).getD []) 100 = [] →
      db.delete_by_filter name filter
        = .ok (db,
            [.getByFilterCall name ((flatten_milvus_filter filter).getD []) 100], []))
    ∧ (inst.get_by_filter ((flatten_milvus_filter filter).getD []) 100 ≠ [] →
      db.delete_by_filter name filter
        = .ok (db.setInst name
            (inst.delete
              ((inst.get_by_filter ((flatten_milvus_filter filter).getD []) 100).map
                VecDBItem.id)),
          [.getByFilterCall name ((flatten_milvus_filter filter).getD []) 100,
            .deleteCall name
              ((inst.get_by_filter ((flatten_milvus_filter filter).getD []) 100).map
                VecDBItem.id)],
          [.deletedByFilter name
              (inst.get_by_filter ((flatten_milvus_filter filter).getD []) 100).length])) :=
  delete_by_filter_cases db name inst filter hinst

/-- A record carrying a `user_id` payload entry, for filter matching. -/
def itemU1 : VecDBItem :=
  ⟨"m1", some [1], some [("user_id", PVal.str "u1")], none⟩

/-- A second record with a different `user_id`. -/
def itemU2 : VecDBItem :=
  ⟨"m2", some [2], some [("user_id", PVal.str "u2")], none⟩

/-- A one-collection router holding `itemU1` and `itemU2`. -/
def dbUsers : QdrantMultiCollectionVecDB :=
  ⟨[("pref", ⟨"pref", [itemU1, itemU2]⟩)]⟩

/-- C5 witness: deleting by `user_id = u1` scans, matches exactly `m1`,
deletes exactly that id and logs the count 1; a filter matching nothing
issues no delete. -/
theorem c5_witness :
    dbUsers.delete_by_filter "pref" (some [("user_id", PVal.str "u1")])
      = .ok (⟨[("pref", ⟨"pref", [itemU2]⟩)]⟩,
          [.getByFilterCall "pref" [("user_id", PVal.str "u1")] 100,
            .deleteCall "pref" ["m1"]],
          [.deletedByFilter "pref" 1])
    ∧ dbUsers.delete_by_filter "pref" (some [("user_id", PVal.str "zz")])
      = .ok (dbUsers, [.getByFilterCall "pref" [("user_id", PVal.str "zz")] 100], []) := by
  constructor
  · have h := (c5_delete_by_filter_compositional dbUsers "pref" ⟨"pref", [itemU1, itemU2]⟩
      (some [("user_id", PVal.str "u1")]) rfl).2
      (fun hx => Option.noConfusion (congrArg List.head? hx))
    rw [h]
    rfl
  · have h := (c5_delete_by_filter_compositional dbUsers "pref" ⟨"pref", [itemU1, itemU2]⟩
      (some [("user_id", PVal.str "zz")]) rfl).1 rfl
    rw [h]
    rfl

theorem matches_flat_filter_nil (item : VecDBItem) :
    matches_flat_filter [] item = true := rfl

theorem get_by_filter_empty_filter (inst : QdrantVecDB) (limit : Nat) :
    inst.get_by_filter [] limit = inst.items.take limit := by
  unfold QdrantVecDB.get_by_filter
  congr 1
  induction inst.items with
  | nil => rfl
  | cons x xs ih => simp [List.filter, matches_flat_filter_nil, ih]

/-- C10: when the supplied filter flattens to nothing, the router
substitutes the empty mapping, which matches every record:
`get_by_filter` returns every record of the collection up to the scroll
limit, and `delete_by_filter` on a non-empty collection deletes the ids of
up to 100 arbitrary records (the default scroll limit of the scan) instead of
deleting nothing or failing. -/
theorem c10_vacuous_filter_matches_all (db : QdrantMultiCollectionVecDB)
    (name : String) (inst : QdrantVecDB) (filter : Option Dict) (scroll_limit : Nat)
    (hinst : lookupInst db.instances name = some inst)
    (hvac : flatten_milvus_filter filter = none) :
    db.get_by_filter name filter scroll_limit
      = .ok ((inst.items.take scroll_limit).map to_milvus_item,
          [.getByFilterCall name [] scroll_limit])
    ∧ (inst.items ≠ [] →
      db.delete_by_filter name filter
        = .ok (db.setInst name (inst.delete ((inst.items.take 100).map VecDBItem.id)),
            [.getByFilterCall name [] 100,
              .deleteCall name ((inst.items.take 100).map VecDBItem.id)],
            [.deletedByFilter name (inst.items.take 100).length])) := by
  have hok := getInst_eq_ok db name inst hinst
  constructor
  · simp only [QdrantMultiCollectionVecDB.get_by_filter, hvac, Option.getD_none, hok,
      get_by_filter_empty_filter]
    rfl
  · intro hne
    have hscan : inst.get_by_filter ((flatten_milvus_filter filter).getD []) 100
        = inst.items.take 100 := by
      rw [hvac, Option.getD_none, get_by_filter_empty_filter]
    have htake : inst.items.take 100 ≠ [] := by
      cases hi : inst.items with
      | nil => exact absurd hi hne
      | cons x xs => simp [List.take]
    have h := (delete_by_filter_cases db name inst filter hinst).2 (by rw [hscan]; exact htake)
    rw [h, hscan, hvac]
    rfl

/-- C10 witness: a vacuous compound filter (`"and"` of a single `None`
clause) on the two-record collection returns both records and deletes both
ids. -/
theorem c10_witness :
    dbUsers.get_by_filter "pref" (some [("and", PVal.list [PVal.pynone])]) 100
      = .ok ([to_milvus_item itemU1, to_milvus_item itemU2],
          [.getByFilterCall "pref" [] 100])
    ∧ dbUsers.delete_by_filter "pref" (some [("and", PVal.list [PVal.pynone])])
      = .ok (⟨[("pref", ⟨"pref", []⟩)]⟩,
          [.getByFilterCall "pref" [] 100, .deleteCall "pref" ["m1", "m2"]],
          [.deletedByFilter "pref" 2]) := by
  have h := c10_vacuous_filter_matches_all dbUsers "pref" ⟨"pref", [itemU1, itemU2]⟩
    (some [("and", PVal.list [PVal.pynone])]) 100 rfl rfl
  constructor
  · rw [h.1]
    rfl
  · have h2 := h.2 (fun hx => Option.noConfusion (congrArg List.head? hx))
    rw [h2]
    rfl

/-! ## C6 -/

/-- C6 counterexample: the claim says `ensure_payload_indexes` routes to
the single addressed backend instance; on the code it takes no
`collection_name` at all and issues the call on every configured instance
— here both `pref` and `mem0` receive it. -/
theorem c6_counterexample_broadcast :
    dbTwo.ensure_payload_indexes ["user_id"]
      = [.ensureIndexesCall "pref" ["user_id"], .ensureIndexesCall "mem0" ["user_id"]]
    ∧ dbTwo.ensure_payload_indexes ["user_id"]
        ≠ [.ensureIndexesCall "pref" ["user_id"]] :=
  ⟨rfl, by intro hx; exact absurd (congrArg List.length hx) (by decide)⟩

/-- C6 amended: `ensure_payload_indexes` takes no routing key and
broadcasts to every configured backend instance, issuing the indexing call
once per configured collection, in configuration order. -/
theorem c6_amended_ensure_payload_indexes_broadcasts
    (db : QdrantMultiCollectionVecDB) (fields : List String) (name : String)
    (hmem : name ∈ db.names) :
    db.ensure_payload_indexes fields
      = db.instances.map (fun p => .ensureIndexesCall p.1 fields)
    ∧ .ensureIndexesCall name fields ∈ db.ensure_payload_indexes fields := by
  refine ⟨rfl, ?_⟩
  simp only [QdrantMultiCollectionVecDB.names, List.mem_map] at hmem
  rcases hmem with ⟨p, hp, hname⟩
  subst hname
  exact List.mem_map.mpr ⟨p, hp, rfl⟩

/-- C6 amended witness: the second configured collection receives the
indexing call. -/
theorem c6_witness :
    dbTwo.ensure_payload_indexes ["user_id"]
      = [.ensureIndexesCall "pref" ["user_id"], .ensureIndexesCall "mem0" ["user_id"]]
    ∧ .ensureIndexesCall "mem0" ["user_id"] ∈ dbTwo.ensure_payload_indexes ["user_id"] :=
  c6_amended_ensure_payload_indexes_broadcasts dbTwo ["user_id"] "mem0" (by decide)

/-! ## C8 -/

theorem pyTruthy_of_ne_empty (s : String) (hs : s ≠ "") :
    pyTruthy (PVal.str s) = true := by
  have hse : s.isEmpty = false := by
    cases hb : s.isEmpty with
    | false => rfl
    | true => exact absurd ((String.isEmpty_iff s).mp hb) hs
  simp [pyTruthy, hse]

/-- C8: the two item-shape conversions are symmetric on canonical items:
for every Milvus-shaped item whose `memory` and `original_text` are
non-empty strings, `_prepare_for_qdrant` converts it to the generic shape
(storing both fields into the payload) and `_to_milvus_item` recovers an
item with the same `id`, `vector`, `score`, `memory` and
`original_text`. -/
theorem c8_item_shape_roundtrip (m : MilvusVecDBItem) (s t : String)
    (hm : m.memory = PVal.str s) (hs : s ≠ "")
    (ht : m.original_text = PVal.str t) (hts : t ≠ "") :
    prepare_for_qdrant (.milvus m) = .vecItem (prepare_milvus m)
    ∧ (to_milvus_item (prepare_milvus m)).id = m.id
    ∧ (to_milvus_item (prepare_milvus m)).vector = m.vector
    ∧ (to_milvus_item (prepare_milvus m)).score = m.score
    ∧ (to_milvus_item (prepare_milvus m)).memory = m.memory
    ∧ (to_milvus_item (prepare_milvus m)).original_text = m.original_text := by
  have hpm : pyTruthy m.memory = true := by rw [hm]; exact pyTruthy_of_ne_empty s hs
  have hpo : pyTruthy m.original_text = true := by rw [ht]; exact pyTruthy_of_ne_empty t hts
  have hpay : (prepare_milvus m).payload
      = some (dinsert
          (dinsert (match m.payload with | some d => d | none => []) "memory" m.memory)
          "original_text" m.original_text) := by
    simp only [prepare_milvus, hpm, hpo, if_true]
  have hmem : dget (dinsert
        (dinsert (match m.payload with | some d => d | none => []) "memory" m.memory)
        "original_text" m.original_text) "memory" = some m.memory := by
    rw [dget_dinsert, if_neg (by decide), dget_dinsert, if_pos rfl]
  have horig : dget (dinsert
        (dinsert (match m.payload with | some d => d | none => []) "memory" m.memory)
        "original_text" m.original_text) "original_text" = some m.original_text := by
    rw [dget_dinsert, if_pos rfl]
  refine ⟨rfl, rfl, rfl, rfl, ?_, ?_⟩
  · simp only [to_milvus_item, hpay]
    rw [hmem]
    rfl
  · simp only [to_milvus_item, hpay]
    rw [horig]
    rfl

/-- A canonical item with non-empty `memory` and `original_text` and a
pre-existing payload entry. -/
def itemRound : MilvusVecDBItem :=
  ⟨"id9", some [1], some [("extra", PVal.int 5)], some 2,
    PVal.str "hello", PVal.str "orig"⟩

/-- C8 witness: the round trip on `itemRound` recovers its fields. -/
theorem c8_witness :
    prepare_for_qdrant (.milvus itemRound) = .vecItem (prepare_milvus itemRound)
    ∧ (to_milvus_item (prepare_milvus itemRound)).memory = PVal.str "hello"
    ∧ (to_milvus_item (prepare_milvus itemRound)).original_text = PVal.str "orig"
    ∧ (to_milvus_item (prepare_milvus itemRound)).id = "id9" := by
  have h := c8_item_shape_roundtrip itemRound "hello" "orig" rfl (by decide) rfl (by decide)
  exact ⟨h.1, (h.2.2.2.2.1).trans rfl, (h.2.2.2.2.2).trans rfl, (h.2.1).trans rfl⟩

/-! ## C7 -/

theorem enumFrom_map_snd_snd (l : List (RetrievedEntry × List PFloat)) (n : Nat) :
    (List.enumFrom n l).map (fun p => p.2.2) = l.map Prod.snd := by
  induction l generalizing n with
  | nil => rfl
  | cons x xs ih => simp [List.enumFrom, ih]

theorem enumFrom_map_snd_content (l : List (RetrievedEntry × List PFloat)) (n : Nat) :
    (List.enumFrom n l).map (fun p => p.2.1.content) = l.map (fun e => e.1.content) := by
  induction l generalizing n with
  | nil => rfl
  | cons x xs ih => simp [List.enumFrom, ih]

theorem zip_map_snd_take {α β : Type} (xs : List α) (ys : List β) :
    (xs.zip ys).map Prod.snd = ys.take (xs.zip ys).length := by
  induction xs generalizing ys with
  | nil => rfl
  | cons x xs ih =>
    cases ys with
    | nil => rfl
    | cons y ys => simp [List.zip_cons_cons, List.take_succ_cons, ih]

theorem zip_map_fst_content (xs : List RetrievedEntry) (ys : List (List PFloat)) :
    (xs.zip ys).map (fun e => e.1.content)
      = (xs.map RetrievedEntry.content).take (xs.zip ys).length := by
  induction xs generalizing ys with
  | nil => rfl
  | cons x xs ih =>
    cases ys with
    | nil => rfl
    | cons y ys => simp [List.zip_cons_cons, List.take_succ_cons, ih]

/-- C7: when the external search response is non-empty, the retriever
invokes the injected embedder exactly once, on the single batch of all
constructed memory texts (never once per result), and the `i`-th returned
memory item carries the `i`-th returned embedding (the item list is the
position-preserving zip of entries with embeddings, its `i`-th memory text
being the `i`-th input of the batch). -/
theorem c7_batch_embedding_alignment (embed : List String → List (List PFloat))
    (gen_id : Nat → String) (now_str now_iso : String)
    (search_results : List Dict) (parsed_goal : Option ParsedGoal)
    (info : Option Dict) (hne : search_results ≠ []) :
    (retrieve_from_internet embed gen_id now_str now_iso search_results parsed_goal
        info).2
      = [search_results.map memory_content_of]
    ∧ (retrieve_from_internet embed gen_id now_str now_iso search_results parsed_goal
        info).1.map (fun it => it.metadata.embedding)
      = (embed (search_results.map memory_content_of)).take
          (retrieve_from_internet embed gen_id now_str now_iso search_results
            parsed_goal info).1.length
    ∧ (retrieve_from_internet embed gen_id now_str now_iso search_results parsed_goal
        info).1.map TextualMemoryItem.memory
      = (search_results.map memory_content_of).take
          (retrieve_from_internet embed gen_id now_str now_iso search_results
            parsed_goal info).1.length
    ∧ (retrieve_from_internet embed gen_id now_str now_iso search_results parsed_goal
        info).1.length
      = min search_results.length
          (embed (search_results.map memory_content_of)).length := by
  have hf : search_results.isEmpty = false := by
    cases search_results with
    | nil => exact absurd rfl hne
    | cons x xs => rfl
  have htexts : (search_results.map (entry_of parsed_goal)).map RetrievedEntry.content
      = search_results.map memory_content_of := by
    rw [List.map_map]
    rfl
  simp only [retrieve_from_internet, hf, Bool.false_eq_true, if_false, List.map_map,
    List.enum, htexts]
  refine ⟨trivial, ?_, ?_, ?_⟩
  · rw [show ((fun it : TextualMemoryItem => it.metadata.embedding) ∘ fun
        ie : Nat × (RetrievedEntry × List PFloat) =>
        ({ id := gen_id ie.1, memory := ie.2.1.content, metadata := {
            user_id := (dget (match info with
              | some d => if d.isEmpty then
                  [("user_id", PVal.str ""), ("session_id", PVal.str "")] else d
              | none => [("user_id", PVal.str ""), ("session_id", PVal.str "")])
              "user_id").getD (PVal.str "")
            session_id := (dget (match info with
              | some d => if d.isEmpty then
                  [("user_id", PVal.str ""), ("session_id", PVal.str "")] else d
              | none => [("user_id", PVal.str ""), ("session_id", PVal.str "")])
              "session_id").getD (PVal.str "")
            status := "activated", type := "fact", memory_time := now_str
            source := "web", confidence := 85, tags := ie.2.1.tags
            visibility := "public", memory_type := "LongTermMemory"
            key := ie.2.1.title
            sources := if pyTruthy ie.2.1.link then [⟨"web", ie.2.1.link⟩] else []
            embedding := ie.2.2, created_at := now_iso, usage := []
            background := "SearXNG search result" } } : TextualMemoryItem))
      = fun p : Nat × (RetrievedEntry × List PFloat) => p.2.2 from rfl]
    rw [enumFrom_map_snd_snd, zip_map_snd_take]
    congr 1
    simp [List.enumFrom_length]
  · rw [show ((fun it : TextualMemoryItem => it.memory) ∘ fun
        ie : Nat × (RetrievedEntry × List PFloat) =>
        ({ id := gen_id ie.1, memory := ie.2.1.content, metadata := {
            user_id := (dget (match info with
              | some d => if d.isEmpty then
                  [("user_id", PVal.str ""), ("session_id", PVal.str "")] else d
              | none => [("user_id", PVal.str ""), ("session_id", PVal.str "")])
              "user_id").getD (PVal.str "")
            session_id := (dget (match info with
              | some d => if d.isEmpty then
                  [("user_id", PVal.str ""), ("session_id", PVal.str "")] else d
              | none => [("user_id", PVal.str ""), ("session_id", PVal.str "")])
              "session_id").getD (PVal.str "")
            status := "activated", type := "fact", memory_time := now_str
            source := "web", confidence := 85, tags := ie.2.1.tags
            visibility := "public", memory_type := "LongTermMemory"
            key := ie.2.1.title
            sources := if pyTruthy ie.2.1.link then [⟨"web", ie.2.1.link⟩] else []
            embedding := ie.2.2, created_at := now_iso, usage := []
            background := "SearXNG search result" } } : TextualMemoryItem))
      = fun p : Nat × (RetrievedEntry × List PFloat) => p.2.1.content from rfl]
    rw [enumFrom_map_snd_content, zip_map_fst_content, htexts]
    congr 1
    simp [List.enumFrom_length]
  · simp [List.enumFrom_length, List.length_zip, htexts]

/-- A one-result search response. -/
def searchResultT : Dict :=
  [("title", PVal.str "T"), ("content", PVal.str "S"), ("url", PVal.str "U")]

/-- An embedder stub returning one constant vector per input text. -/
def embedConst : List String → List (List PFloat) :=
  fun ts => ts.map (fun _ => [1])

/-- C7 witness: one search result, embedded in one batch of one text, the
single item carrying the single returned embedding. -/
theorem c7_witness :
    (retrieve_from_internet embedConst (fun _ => "u0") "2026-10-12" "2026-10-12T00:00:00"
        [searchResultT] none none).2
      = [["Title: T\nSummary: S\nSource: U"]]
    ∧ (retrieve_from_internet embedConst (fun _ => "u0") "2026-10-12" "2026-10-12T00:00:00"
        [searchResultT] none none).1.map (fun it => it.metadata.embedding)
      = [[1]]
    ∧ (retrieve_from_internet embedConst (fun _ => "u0") "2026-10-12" "2026-10-12T00:00:00"
        [searchResultT] none none).1.length = 1 := by
  have h := c7_batch_embedding_alignment embedConst (fun _ => "u0") "2026-10-12"
    "2026-10-12T00:00:00" [searchResultT] none none (fun hx => List.noConfusion hx)
  exact ⟨h.1.trans rfl, (h.2.1).trans rfl, (h.2.2.2).trans rfl⟩

end MemOS
